import Mathlib

/-!
A shallow embedding of the `Stack<T>` container of this repository
(`src/C++/stack.hh` and its sibling copy `src/unnamed/part_002`), together
with theorems about its operations.

The C++ object holds a base pointer `_base`, a top-of-stack pointer
`_pointer` and a count `_capacity`; the buffer allocated at `_base` always
holds exactly `_capacity` slots.  We model the buffer as a `List T` whose
length is the capacity, and the pointer as the offset `_pointer - _base`
(which `size()` returns).  Throwing operations are embedded as functions
returning `Except StackError α × Stack T`: the second component is the
state of the object when the function returns or throws (in the C++ every
`throw` happens before any mutation of the throwing primitive, which the
transcription below reproduces statement by statement).
-/

namespace DS

/-- `std::overflow_error` / `std::underflow_error` as thrown by the source. -/
inductive StackError where
  | overflow
  | underflow
deriving DecidableEq, Repr

/-- The `Stack<T>` object: `buf` is the buffer at `_base` (its length is
`_capacity`, since every allocation path creates `new T[_capacity]`), and
`off` is `_pointer - _base`, i.e. the value `size()` returns. -/
structure Stack (T : Type) where
  buf : List T
  off : Nat
deriving Repr

variable {T : Type} [Inhabited T]

/-- `size()`: `_pointer - _base`. -/
def Stack.size (s : Stack T) : Nat := s.off

/-- `capacity()`: `_capacity` (= the buffer's length in this model). -/
def Stack.capacity (s : Stack T) : Nat := s.buf.length

/-- The logically valid elements, bottom first: slots `0 .. size-1`. -/
def Stack.contents (s : Stack T) : List T := s.buf.take s.off

/-- The element at depth `k` (depth 0 = top): `_pointer[-(k+1)]`. -/
def Stack.elemAt (s : Stack T) (k : Nat) : T := s.buf.getD (s.off - 1 - k) default

/-- The constructor `Stack(size)`: null fields, then `allocate(size)`, which
on a null base just installs a fresh `new T[size]` buffer with offset 0.
A fresh buffer's slots are default-initialized garbage; we model them as
`default`. -/
def Stack.new (T : Type) [Inhabited T] (n : Nat) : Stack T :=
  { buf := List.replicate n default, off := 0 }

/-- `copy()`: a new stack of the same capacity, `memcpy` of the whole
buffer, and the new pointer advanced by `size()`. -/
def Stack.copy (s : Stack T) : Stack T :=
  { buf := s.buf, off := s.off }

/-- `allocate(size)` as written in `src/unnamed/part_002` (element-exact
`memcpy` of `min(_capacity, size)` elements from the base): a fresh buffer
of `size` slots, the first `min(_capacity, size)` filled from the old
buffer, and the old offset kept unchanged — it is NOT re-clamped to the
new capacity. -/
def Stack.allocate (newSize : Nat) (s : Stack T) : Stack T :=
  { buf := s.buf.take (min s.buf.length newSize) ++
      List.replicate (newSize - min s.buf.length newSize) default,
    off := s.off }

/-- `clear()`: `_pointer = _base`. -/
def Stack.clear (s : Stack T) : Stack T :=
  { buf := s.buf, off := 0 }

/-- `push(x)`: throws overflow when `size() >= capacity()`, otherwise
writes `x` at the current offset and increments the pointer. -/
def Stack.push (x : T) (s : Stack T) : Except StackError Unit × Stack T :=
  if s.capacity ≤ s.size then (Except.error StackError.overflow, s)
  else (Except.ok (), { buf := s.buf.set s.off x, off := s.off + 1 })

/-- `pop()`: throws underflow when `size() <= 0`, otherwise decrements the
pointer and returns the value it now points at. -/
def Stack.pop (s : Stack T) : Except StackError T × Stack T :=
  if s.size = 0 then (Except.error StackError.underflow, s)
  else (Except.ok (s.buf.getD (s.off - 1) default), { buf := s.buf, off := s.off - 1 })

/-- `pick(n)`: throws underflow when `size() <= n`, otherwise pushes
`_pointer[-(n+1)]`, i.e. the element at depth `n`. -/
def Stack.pick (n : Nat) (s : Stack T) : Except StackError Unit × Stack T :=
  if s.size ≤ n then (Except.error StackError.underflow, s)
  else s.push (s.buf.getD (s.off - 1 - n) default)

/-- The body of `roll`'s for loop: `for(i = -(n+2); i <= -2; ++i)
_pointer[i] = _pointer[i+1];` — `k` iterations of `buf[j] := buf[j+1]`
with `j` ascending. -/
def rollShift (buf : List T) (j : Nat) : Nat → List T
  | 0 => buf
  | k + 1 => rollShift (buf.set j (buf.getD (j + 1) default)) (j + 1) k

/-- `drop()`: `pop()` with the value discarded. -/
def Stack.drop (s : Stack T) : Except StackError Unit × Stack T :=
  match s.pop with
  | (Except.error e, s') => (Except.error e, s')
  | (Except.ok _, s') => (Except.ok (), s')

/-- `roll(n)`: `pick(n)`, then the shift loop (which touches indices
`off-n-1 .. off` of the post-pick buffer, `off` being the pre-pick
offset), then `drop()`. -/
def Stack.roll (n : Nat) (s : Stack T) : Except StackError Unit × Stack T :=
  match s.pick n with
  | (Except.error e, s') => (Except.error e, s')
  | (Except.ok _, s') =>
      Stack.drop { buf := rollShift s'.buf (s'.off - (n + 2)) (n + 1), off := s'.off }

/-- `peek()`: `pop()` then `push` of the popped value, returning it. -/
def Stack.peek (s : Stack T) : Except StackError T × Stack T :=
  match s.pop with
  | (Except.error e, s') => (Except.error e, s')
  | (Except.ok x, s') =>
      match s'.push x with
      | (Except.error e, s'') => (Except.error e, s'')
      | (Except.ok _, s'') => (Except.ok x, s'')

/-- `dup()`: `pick(0)`. -/
def Stack.dup (s : Stack T) : Except StackError Unit × Stack T := s.pick 0

/-- `swap()`: `roll(1)`. -/
def Stack.swap (s : Stack T) : Except StackError Unit × Stack T := s.roll 1

/-- `over()`: `pick(1)`. -/
def Stack.over (s : Stack T) : Except StackError Unit × Stack T := s.pick 1

/-- `rot()`: `roll(2)`. -/
def Stack.rot (s : Stack T) : Except StackError Unit × Stack T := s.roll 2

/-- `nip()`: `swap()` then `drop()`. -/
def Stack.nip (s : Stack T) : Except StackError Unit × Stack T :=
  match s.swap with
  | (Except.error e, s') => (Except.error e, s')
  | (Except.ok _, s') => s'.drop

/-- `tuck()`: `swap()` then `over()`. -/
def Stack.tuck (s : Stack T) : Except StackError Unit × Stack T :=
  match s.swap with
  | (Except.error e, s') => (Except.error e, s')
  | (Except.ok _, s') => s'.over

/-- Pushing a list of values left to right (propagating the first error). -/
def Stack.pushAll (xs : List T) (s : Stack T) : Except StackError Unit × Stack T :=
  match xs with
  | [] => (Except.ok (), s)
  | x :: rest =>
      match s.push x with
      | (Except.error e, s') => (Except.error e, s')
      | (Except.ok _, s') => s'.pushAll rest

/-- Popping `k` times, collecting the values in pop order. -/
def Stack.popN (k : Nat) (s : Stack T) : Except StackError (List T) × Stack T :=
  match k with
  | 0 => (Except.ok [], s)
  | k + 1 =>
      match s.pop with
      | (Except.error e, s') => (Except.error e, s')
      | (Except.ok v, s') =>
          match s'.popN k with
          | (Except.error e, s'') => (Except.error e, s'')
          | (Except.ok vs, s'') => (Except.ok (v :: vs), s'')

/-- The byte count `src/C++/stack.hh` passes to `memcpy` in `allocate`:
`this->_capacity > size ? size : this->_capacity * sizeof(T)`.  The
conditional expression is not parenthesized, so `sizeof(T)` scales only
the else branch; the sibling copy `src/unnamed/part_002` writes
`(this->_capacity > size ? size : this->_capacity) * sizeof(T)` instead. -/
def allocCopyBytes (capacity newSize sizeofT : Nat) : Nat :=
  if newSize < capacity then newSize else capacity * sizeofT

/-- The number of whole elements that byte count preserves. -/
def allocCopiedElems (capacity newSize sizeofT : Nat) : Nat :=
  allocCopyBytes capacity newSize sizeofT / sizeofT

/-- A heap buffer as seen by `operator=`: `alive = false` once
`delete[]` has run; reading a dead buffer is undefined. -/
structure Buf (T : Type) where
  data : List T
  alive : Bool

/-- Reading a buffer: defined only while it is alive. -/
def readBuf (b : Buf T) : Option (List T) :=
  if b.alive then some b.data else none

/-- `operator=(const Stack &stack)`: first `delete[] this->_base`, then
`stack.copy()`, then adopt the copy's fields.  `aliased = true` models the
self-assignment call `s = s`, where the argument is the destination
itself: the buffer `copy()` reads has just been freed by the `delete[]`,
so the read — and hence the result — is undefined (`none`). -/
def opAssign (_dst src : Stack T) (aliased : Bool) : Option (Stack T) :=
  let srcBuf : Buf T := { data := src.buf, alive := !aliased }
  match readBuf srcBuf with
  | none => none
  | some data => some (Stack.copy { buf := data, off := src.off })

/-- A full stack of capacity 1 holding the single element 7. -/
def exFull1 : Stack Nat := { buf := [7], off := 1 }

/-- A full stack of capacity 2 holding 1 then 2 (2 on top). -/
def exFull2 : Stack Nat := { buf := [1, 2], off := 2 }

/-- A stack of capacity 6 holding 1, 2, 3, 4 (4 on top). -/
def exS3 : Stack Nat := { buf := [1, 2, 3, 4, 0, 0], off := 4 }

/-- A stack of capacity 2 holding 5 then 6, used to exercise `allocate`. -/
def exShrink : Stack Nat := { buf := [5, 6], off := 2 }

/-- An empty stack of capacity 8 after pushing `xs` left to right. -/
def rpn (xs : List Nat) : Stack Nat := ((Stack.new Nat 8).pushAll xs).2

/-! ### List helper lemmas -/

omit [Inhabited T] in
theorem take_set_prefix (l : List T) (i : Nat) (x : T) :
    (l.set i x).take i = l.take i := by
  apply List.ext_getElem?
  intro j
  rw [List.getElem?_take, List.getElem?_take]
  by_cases hj : j < i
  · simp [hj, List.getElem?_set_ne (by omega : i ≠ j)]
  · simp [hj]

omit [Inhabited T] in
theorem take_succ_set (l : List T) (i : Nat) (x : T) (h : i < l.length) :
    (l.set i x).take (i + 1) = l.take i ++ [x] := by
  rw [List.take_succ, take_set_prefix, List.getElem?_set_self h]
  rfl

omit [Inhabited T] in
theorem set_getD_self (l : List T) (i : Nat) (d : T) : l.set i (l.getD i d) = l := by
  induction l generalizing i with
  | nil => rfl
  | cons a l ih =>
      cases i with
      | zero => simp [List.getD]
      | succ n =>
          show a :: l.set n (List.getD (a :: l) (n + 1) d) = a :: l
          rw [show List.getD (a :: l) (n + 1) d = List.getD l n d from rfl, ih]

theorem rollShift_length (k j : Nat) (buf : List T) :
    (rollShift buf j k).length = buf.length := by
  induction k generalizing j buf with
  | zero => rfl
  | succ k ih => rw [rollShift, ih, List.length_set]

theorem rollShift_getElem? (k j : Nat) (buf : List T) (hk : j + k < buf.length) (i : Nat) :
    (rollShift buf j k)[i]? = if j ≤ i ∧ i < j + k then buf[i + 1]? else buf[i]? := by
  induction k generalizing j buf with
  | zero =>
      simp only [rollShift]
      rw [if_neg (by omega)]
  | succ k ih =>
      rw [rollShift,
        ih (j + 1) (buf.set j (buf.getD (j + 1) default)) (by rw [List.length_set]; omega)]
      have hj1 : j + 1 < buf.length := by omega
      by_cases hij : i = j
      · subst hij
        rw [if_neg (by omega), if_pos (by omega),
          List.getElem?_set_self (show i < (buf : List T).length by omega),
          List.getD_eq_getElem?_getD, List.getElem?_eq_getElem hj1]
        rfl
      · by_cases hmid : j + 1 ≤ i ∧ i < j + 1 + k
        · rw [if_pos hmid, if_pos (by omega), List.getElem?_set_ne (by omega : j ≠ i + 1)]
        · rw [if_neg hmid, if_neg (by omega), List.getElem?_set_ne (by omega : j ≠ i)]

/-! ### Basic operation lemmas (stated on the raw fields `off` and `buf`) -/

omit [Inhabited T] in
theorem Stack.push_ok (s : Stack T) (x : T) (h : s.off < s.buf.length) :
    s.push x = (Except.ok (), { buf := s.buf.set s.off x, off := s.off + 1 }) := by
  rw [Stack.push, if_neg (by exact Nat.not_le.mpr h)]

omit [Inhabited T] in
theorem Stack.push_err (s : Stack T) (x : T) (h : s.buf.length ≤ s.off) :
    s.push x = (Except.error StackError.overflow, s) := by
  rw [Stack.push, if_pos (by exact h)]

theorem Stack.pop_ok (s : Stack T) (h : 0 < s.off) :
    s.pop = (Except.ok (s.buf.getD (s.off - 1) default),
      { buf := s.buf, off := s.off - 1 }) := by
  rw [Stack.pop, if_neg (by exact Nat.pos_iff_ne_zero.mp h)]

theorem Stack.pop_err (s : Stack T) (h : s.off = 0) :
    s.pop = (Except.error StackError.underflow, s) := by
  rw [Stack.pop, if_pos (by exact h)]

theorem Stack.pick_ok (s : Stack T) (n : Nat) (hn : n < s.off) (hc : s.off < s.buf.length) :
    s.pick n = (Except.ok (),
      { buf := s.buf.set s.off (s.buf.getD (s.off - 1 - n) default), off := s.off + 1 }) := by
  rw [Stack.pick, if_neg (by exact Nat.not_le.mpr hn), Stack.push_ok s _ hc]

theorem Stack.pick_err_under (s : Stack T) (n : Nat) (hn : s.off ≤ n) :
    s.pick n = (Except.error StackError.underflow, s) := by
  rw [Stack.pick, if_pos (by exact hn)]

theorem Stack.pick_err_over (s : Stack T) (n : Nat) (hn : n < s.off)
    (hc : s.buf.length ≤ s.off) :
    s.pick n = (Except.error StackError.overflow, s) := by
  rw [Stack.pick, if_neg (by exact Nat.not_le.mpr hn), Stack.push_err s _ hc]

theorem Stack.roll_ok (s : Stack T) (n : Nat) (hn : n < s.off) (hc : s.off < s.buf.length) :
    s.roll n = (Except.ok (),
      { buf := rollShift (s.buf.set s.off (s.buf.getD (s.off - 1 - n) default))
          (s.off - n - 1) (n + 1), off := s.off }) := by
  have harith : s.off + 1 - (n + 2) = s.off - n - 1 := by omega
  simp only [Stack.roll, Stack.pick_ok s n hn hc, harith, Stack.drop,
    Stack.pop, Stack.size]
  simp

/-- The buffer after a successful `roll(n)`, slot by slot: slots below
`off-n-1` and above `off` keep their values, slots `off-n-1 .. off-2` take
the value of the slot above them, and slots `off-1` (the new top) and
`off` (the scratch slot left behind by `pick`) hold the old depth-`n`
element. -/
theorem Stack.roll_buf_getElem? (s : Stack T) (n : Nat) (hn : n < s.off)
    (hc : s.off < s.buf.length) (i : Nat) :
    ((s.roll n).2.buf)[i]? =
      if i < s.off - n - 1 then s.buf[i]?
      else if i < s.off - 1 then s.buf[i + 1]?
      else if i ≤ s.off then some (s.buf.getD (s.off - 1 - n) default)
      else s.buf[i]? := by
  rw [Stack.roll_ok s n hn hc]
  have hlen : (s.off - n - 1) + (n + 1) < (s.buf.set s.off (s.buf.getD (s.off - 1 - n) default)).length := by
    rw [List.length_set]; omega
  rw [rollShift_getElem? (n + 1) (s.off - n - 1) _ hlen i]
  by_cases h1 : i < s.off - n - 1
  · rw [if_neg (by omega), if_pos h1, List.getElem?_set_ne (by omega : s.off ≠ i)]
  · by_cases h2 : i < s.off - 1
    · rw [if_pos (by omega), if_neg h1, if_pos h2,
        List.getElem?_set_ne (by omega : s.off ≠ i + 1)]
    · by_cases h3 : i = s.off - 1
      · rw [if_pos (by omega), if_neg h1, if_neg h2, if_pos (by omega)]
        have : i + 1 = s.off := by omega
        rw [this, List.getElem?_set_self (by omega)]
      · by_cases h4 : i = s.off
        · rw [if_neg (by omega), if_neg h1, if_neg h2, if_pos (by omega), h4,
            List.getElem?_set_self (by omega)]
        · rw [if_neg (by omega), if_neg h1, if_neg h2, if_neg (by omega),
            List.getElem?_set_ne (by omega : s.off ≠ i)]

/-! ### Region lemmas for the compound operations -/

theorem Stack.roll_err_under (s : Stack T) (n : Nat) (h : s.off ≤ n) :
    s.roll n = (Except.error StackError.underflow, s) := by
  simp only [Stack.roll, Stack.pick_err_under s n h]

theorem Stack.roll_err_over (s : Stack T) (n : Nat) (hn : n < s.off)
    (hc : s.buf.length ≤ s.off) :
    s.roll n = (Except.error StackError.overflow, s) := by
  simp only [Stack.roll, Stack.pick_err_over s n hn hc]

theorem Stack.peek_err_under (s : Stack T) (h : s.off = 0) :
    s.peek = (Except.error StackError.underflow, s) := by
  simp only [Stack.peek, Stack.pop_err s h]

theorem Stack.peek_ok (s : Stack T) (h : 0 < s.off) (hc : s.off ≤ s.buf.length) :
    s.peek = (Except.ok (s.buf.getD (s.off - 1) default), s) := by
  have h1 : ({ buf := s.buf, off := s.off - 1 } : Stack T).off <
      ({ buf := s.buf, off := s.off - 1 } : Stack T).buf.length := by
    simp only []; omega
  simp only [Stack.peek, Stack.pop_ok s h, Stack.push_ok _ _ h1]
  rw [set_getD_self]
  have : s.off - 1 + 1 = s.off := by omega
  rw [this]

theorem Stack.peek_err_over (s : Stack T) (h : 0 < s.off) (hc : s.buf.length < s.off) :
    s.peek = (Except.error StackError.overflow, { buf := s.buf, off := s.off - 1 }) := by
  have h1 : ({ buf := s.buf, off := s.off - 1 } : Stack T).buf.length ≤
      ({ buf := s.buf, off := s.off - 1 } : Stack T).off := by
    simp only []; omega
  simp only [Stack.peek, Stack.pop_ok s h, Stack.push_err _ _ h1]

theorem Stack.nip_err_under (s : Stack T) (h : s.off ≤ 1) :
    s.nip = (Except.error StackError.underflow, s) := by
  simp only [Stack.nip, Stack.swap, Stack.roll_err_under s 1 h]

theorem Stack.nip_err_over (s : Stack T) (h1 : 1 < s.off) (h2 : s.buf.length ≤ s.off) :
    s.nip = (Except.error StackError.overflow, s) := by
  simp only [Stack.nip, Stack.swap, Stack.roll_err_over s 1 h1 h2]

theorem Stack.nip_ok (s : Stack T) (h1 : 1 < s.off) (h2 : s.off < s.buf.length) :
    s.nip = (Except.ok (), { buf := (s.roll 1).2.buf, off := s.off - 1 }) := by
  have hr := Stack.roll_ok s 1 (by omega) h2
  simp only [Stack.nip, Stack.swap, hr, Stack.drop]
  rw [Stack.pop_ok _ (by simp only []; omega)]

theorem Stack.tuck_err_under (s : Stack T) (h : s.off ≤ 1) :
    s.tuck = (Except.error StackError.underflow, s) := by
  simp only [Stack.tuck, Stack.swap, Stack.roll_err_under s 1 h]

theorem Stack.tuck_err_over (s : Stack T) (h1 : 1 < s.off) (h2 : s.buf.length ≤ s.off) :
    s.tuck = (Except.error StackError.overflow, s) := by
  simp only [Stack.tuck, Stack.swap, Stack.roll_err_over s 1 h1 h2]

theorem Stack.tuck_fst_ok (s : Stack T) (h1 : 1 < s.off) (h2 : s.off < s.buf.length) :
    (s.tuck).1 = Except.ok () := by
  have hr := Stack.roll_ok s 1 (by omega) h2
  simp only [Stack.tuck, Stack.swap, hr, Stack.over]
  rw [Stack.pick_ok _ 1 (by exact h1)
    (by show s.off <
          (rollShift (s.buf.set s.off (s.buf.getD (s.off - 1 - 1) default))
            (s.off - 1 - 1) (1 + 1)).length
        rw [rollShift_length, List.length_set]; exact h2)]

/-! ### Contents-level lemmas -/

omit [Inhabited T] in
theorem Stack.push_contents (s : Stack T) (x : T) (h : s.off < s.buf.length) :
    ((s.push x).2).contents = s.contents ++ [x] := by
  rw [Stack.push_ok s x h]
  show (s.buf.set s.off x).take (s.off + 1) = s.buf.take s.off ++ [x]
  exact take_succ_set s.buf s.off x h

omit [Inhabited T] in
theorem take_succ_getD (l : List T) (m k : Nat) (d : T) (h : m + k < l.length) :
    (l.drop m).take (k + 1) = (l.drop m).take k ++ [l.getD (m + k) d] := by
  rw [List.take_succ, List.getElem?_drop, List.getElem?_eq_getElem h,
    List.getD_eq_getElem?_getD, List.getElem?_eq_getElem h]
  rfl

omit [Inhabited T] in
theorem Stack.pushAll_ok (xs : List T) (s : Stack T)
    (h : s.off + xs.length ≤ s.buf.length) :
    (s.pushAll xs).1 = Except.ok () ∧
    (s.pushAll xs).2.off = s.off + xs.length ∧
    (s.pushAll xs).2.buf.length = s.buf.length ∧
    (s.pushAll xs).2.contents = s.contents ++ xs := by
  induction xs generalizing s with
  | nil => simp [Stack.pushAll]
  | cons x rest ih =>
      have hx : s.off < s.buf.length := by
        simp only [List.length_cons] at h; omega
      have hcont := Stack.push_contents s x hx
      rw [Stack.push_ok s x hx] at hcont
      simp only [Stack.pushAll, Stack.push_ok s x hx]
      obtain ⟨a, b, c, d⟩ := ih { buf := s.buf.set s.off x, off := s.off + 1 }
        (by simp only [List.length_set, List.length_cons] at h ⊢; omega)
      refine ⟨a, ?_, ?_, ?_⟩
      · rw [b]; simp only [List.length_set, List.length_cons]; omega
      · rw [c]; simp only [List.length_set]
      · rw [d, hcont, List.append_assoc]
        rfl

theorem Stack.popN_ok (k : Nat) (s : Stack T) (hk : k ≤ s.off) (ho : s.off ≤ s.buf.length) :
    s.popN k = (Except.ok (((s.buf.drop (s.off - k)).take k).reverse),
      { buf := s.buf, off := s.off - k }) := by
  induction k generalizing s with
  | zero => simp [Stack.popN]
  | succ k ih =>
      simp only [Stack.popN, Stack.pop_ok s (show 0 < s.off by omega),
        ih { buf := s.buf, off := s.off - 1 } (by simp only []; omega) (by simp only []; omega)]
      have hm : (s.off : Nat) - 1 - k = s.off - (k + 1) := by omega
      have hmk : (s.off - (k + 1)) + k < s.buf.length := by omega
      have hseg := take_succ_getD s.buf (s.off - (k + 1)) k default hmk
      have hidx : s.off - (k + 1) + k = s.off - 1 := by omega
      rw [hidx] at hseg
      simp only [hm, hseg, List.reverse_append, List.reverse_cons, List.reverse_nil,
        List.nil_append, List.singleton_append]

/-! ### Error characterization and atomicity helpers -/

omit [Inhabited T] in
theorem Stack.push_overflow_iff (s : Stack T) (x : T) :
    (s.push x).1 = Except.error StackError.overflow ↔ s.buf.length ≤ s.off := by
  by_cases h : s.buf.length ≤ s.off
  · rw [Stack.push_err s x h]; simp [h]
  · rw [Stack.push_ok s x (by omega)]; simp [h]

omit [Inhabited T] in
theorem Stack.push_ok_iff (s : Stack T) (x : T) :
    (s.push x).1 = Except.ok () ↔ s.off < s.buf.length := by
  by_cases h : s.buf.length ≤ s.off
  · rw [Stack.push_err s x h]; simp; omega
  · rw [Stack.push_ok s x (by omega)]; simp; omega

omit [Inhabited T] in
theorem Stack.push_err_state (s : Stack T) (x : T) (e : StackError)
    (h : (s.push x).1 = Except.error e) : (s.push x).2 = s := by
  by_cases hc : s.buf.length ≤ s.off
  · rw [Stack.push_err s x hc]
  · rw [Stack.push_ok s x (by omega)] at h
    exact absurd h (by simp)

theorem Stack.pop_underflow_iff (s : Stack T) :
    (s.pop).1 = Except.error StackError.underflow ↔ s.off = 0 := by
  by_cases h : s.off = 0
  · rw [Stack.pop_err s h]; simp [h]
  · rw [Stack.pop_ok s (by omega)]; simp [h]

theorem Stack.pop_err_state (s : Stack T) (e : StackError)
    (h : (s.pop).1 = Except.error e) : (s.pop).2 = s := by
  by_cases h0 : s.off = 0
  · rw [Stack.pop_err s h0]
  · rw [Stack.pop_ok s (by omega)] at h
    exact absurd h (by simp)

theorem Stack.pick_underflow_iff (s : Stack T) (n : Nat) :
    (s.pick n).1 = Except.error StackError.underflow ↔ s.off ≤ n := by
  by_cases h1 : s.off ≤ n
  · rw [Stack.pick_err_under s n h1]; simp [h1]
  · by_cases h2 : s.off < s.buf.length
    · rw [Stack.pick_ok s n (by omega) h2]; simp [h1]
    · rw [Stack.pick_err_over s n (by omega) (by omega)]; simp [h1]

theorem Stack.pick_overflow_iff (s : Stack T) (n : Nat) :
    (s.pick n).1 = Except.error StackError.overflow ↔
      (n < s.off ∧ s.buf.length ≤ s.off) := by
  by_cases h1 : s.off ≤ n
  · rw [Stack.pick_err_under s n h1]; simp; omega
  · by_cases h2 : s.off < s.buf.length
    · rw [Stack.pick_ok s n (by omega) h2]; simp; omega
    · rw [Stack.pick_err_over s n (by omega) (by omega)]; simp; omega

theorem Stack.pick_err_state (s : Stack T) (n : Nat) (e : StackError)
    (h : (s.pick n).1 = Except.error e) : (s.pick n).2 = s := by
  by_cases h1 : s.off ≤ n
  · rw [Stack.pick_err_under s n h1]
  · by_cases h2 : s.off < s.buf.length
    · rw [Stack.pick_ok s n (by omega) h2] at h
      exact absurd h (by simp)
    · rw [Stack.pick_err_over s n (by omega) (by omega)]

theorem Stack.roll_underflow_iff (s : Stack T) (n : Nat) :
    (s.roll n).1 = Except.error StackError.underflow ↔ s.off ≤ n := by
  by_cases h1 : s.off ≤ n
  · rw [Stack.roll_err_under s n h1]; simp [h1]
  · by_cases h2 : s.off < s.buf.length
    · rw [Stack.roll_ok s n (by omega) h2]; simp [h1]
    · rw [Stack.roll_err_over s n (by omega) (by omega)]; simp [h1]

theorem Stack.roll_overflow_iff (s : Stack T) (n : Nat) :
    (s.roll n).1 = Except.error StackError.overflow ↔
      (n < s.off ∧ s.buf.length ≤ s.off) := by
  by_cases h1 : s.off ≤ n
  · rw [Stack.roll_err_under s n h1]; simp; omega
  · by_cases h2 : s.off < s.buf.length
    · rw [Stack.roll_ok s n (by omega) h2]; simp; omega
    · rw [Stack.roll_err_over s n (by omega) (by omega)]; simp; omega

theorem Stack.roll_err_state (s : Stack T) (n : Nat) (e : StackError)
    (h : (s.roll n).1 = Except.error e) : (s.roll n).2 = s := by
  by_cases h1 : s.off ≤ n
  · rw [Stack.roll_err_under s n h1]
  · by_cases h2 : s.off < s.buf.length
    · rw [Stack.roll_ok s n (by omega) h2] at h
      exact absurd h (by simp)
    · rw [Stack.roll_err_over s n (by omega) (by omega)]

theorem Stack.peek_underflow_iff (s : Stack T) :
    (s.peek).1 = Except.error StackError.underflow ↔ s.off = 0 := by
  by_cases h0 : s.off = 0
  · rw [Stack.peek_err_under s h0]; simp [h0]
  · by_cases hc : s.off ≤ s.buf.length
    · rw [Stack.peek_ok s (by omega) hc]; simp [h0]
    · rw [Stack.peek_err_over s (by omega) (by omega)]; simp [h0]

theorem Stack.peek_err_state (s : Stack T) (hw : s.off ≤ s.buf.length) (e : StackError)
    (h : (s.peek).1 = Except.error e) : (s.peek).2 = s := by
  by_cases h0 : s.off = 0
  · rw [Stack.peek_err_under s h0]
  · rw [Stack.peek_ok s (by omega) hw] at h
    exact absurd h (by simp)

theorem Stack.nip_underflow_iff (s : Stack T) :
    (s.nip).1 = Except.error StackError.underflow ↔ s.off ≤ 1 := by
  by_cases h1 : s.off ≤ 1
  · rw [Stack.nip_err_under s h1]; simp [h1]
  · by_cases h2 : s.off < s.buf.length
    · rw [Stack.nip_ok s (by omega) h2]; simp [h1]
    · rw [Stack.nip_err_over s (by omega) (by omega)]; simp [h1]

theorem Stack.nip_err_state (s : Stack T) (e : StackError)
    (h : (s.nip).1 = Except.error e) : (s.nip).2 = s := by
  by_cases h1 : s.off ≤ 1
  · rw [Stack.nip_err_under s h1]
  · by_cases h2 : s.off < s.buf.length
    · rw [Stack.nip_ok s (by omega) h2] at h
      exact absurd h (by simp)
    · rw [Stack.nip_err_over s (by omega) (by omega)]

theorem Stack.tuck_underflow_iff (s : Stack T) :
    (s.tuck).1 = Except.error StackError.underflow ↔ s.off ≤ 1 := by
  by_cases h1 : s.off ≤ 1
  · rw [Stack.tuck_err_under s h1]; simp [h1]
  · by_cases h2 : s.off < s.buf.length
    · rw [Stack.tuck_fst_ok s (by omega) h2]; simp [h1]
    · rw [Stack.tuck_err_over s (by omega) (by omega)]; simp [h1]

theorem Stack.tuck_err_state (s : Stack T) (e : StackError)
    (h : (s.tuck).1 = Except.error e) : (s.tuck).2 = s := by
  by_cases h1 : s.off ≤ 1
  · rw [Stack.tuck_err_under s h1]
  · by_cases h2 : s.off < s.buf.length
    · rw [Stack.tuck_fst_ok s (by omega) h2] at h
      exact absurd h (by simp)
    · rw [Stack.tuck_err_over s (by omega) (by omega)]

theorem Stack.drop_underflow_iff (s : Stack T) :
    (s.drop).1 = Except.error StackError.underflow ↔ s.off = 0 := by
  by_cases h : s.off = 0
  · simp only [Stack.drop, Stack.pop_err s h]; simp [h]
  · simp only [Stack.drop, Stack.pop_ok s (by omega)]; simp [h]

theorem Stack.drop_err_state (s : Stack T) (e : StackError)
    (h : (s.drop).1 = Except.error e) : (s.drop).2 = s := by
  by_cases h0 : s.off = 0
  · simp only [Stack.drop, Stack.pop_err s h0]
  · simp only [Stack.drop, Stack.pop_ok s (by omega)] at h
    exact absurd h (by simp)

/-! ### Element-level success lemmas for `pick` and `roll` -/

theorem Stack.pick_elemAt_spec (s : Stack T) (n : Nat) (hn : n < s.off)
    (hc : s.off < s.buf.length) :
    (s.pick n).1 = Except.ok () ∧ (s.pick n).2.off = s.off + 1 ∧
    (s.pick n).2.buf.length = s.buf.length ∧
    (s.pick n).2.elemAt 0 = s.elemAt n ∧
    (∀ k, k < s.off → (s.pick n).2.elemAt (k + 1) = s.elemAt k) := by
  rw [Stack.pick_ok s n hn hc]
  refine ⟨rfl, rfl, by simp only [List.length_set], ?_, ?_⟩
  · show (s.buf.set s.off (s.buf.getD (s.off - 1 - n) default)).getD (s.off + 1 - 1 - 0)
        default = s.elemAt n
    have hidx : s.off + 1 - 1 - 0 = s.off := by omega
    rw [hidx, List.getD_eq_getElem?_getD, List.getElem?_set_self hc]
    rfl
  · intro k hk
    show (s.buf.set s.off (s.buf.getD (s.off - 1 - n) default)).getD (s.off + 1 - 1 - (k + 1))
        default = s.elemAt k
    have hidx : s.off + 1 - 1 - (k + 1) = s.off - 1 - k := by omega
    rw [hidx, List.getD_eq_getElem?_getD,
      List.getElem?_set_ne (by omega : s.off ≠ s.off - 1 - k), Stack.elemAt,
      List.getD_eq_getElem?_getD]

theorem Stack.roll_elemAt_spec (s : Stack T) (n : Nat) (hn : n < s.off)
    (hc : s.off < s.buf.length) :
    (s.roll n).1 = Except.ok () ∧ (s.roll n).2.off = s.off ∧
    (s.roll n).2.buf.length = s.buf.length ∧
    (s.roll n).2.elemAt 0 = s.elemAt n ∧
    (∀ k, 1 ≤ k → k ≤ n → (s.roll n).2.elemAt k = s.elemAt (k - 1)) ∧
    (∀ k, n < k → k < s.off → (s.roll n).2.elemAt k = s.elemAt k) := by
  have hro := Stack.roll_ok s n hn hc
  have hoff : (s.roll n).2.off = s.off := by rw [hro]
  have hlen : (s.roll n).2.buf.length = s.buf.length := by
    rw [hro]
    show (rollShift _ _ _).length = _
    rw [rollShift_length, List.length_set]
  have hget := Stack.roll_buf_getElem? s n hn hc
  refine ⟨by rw [hro], hoff, hlen, ?_, ?_, ?_⟩
  · show (s.roll n).2.buf.getD ((s.roll n).2.off - 1 - 0) default = s.elemAt n
    rw [hoff]
    have h0 := hget (s.off - 1 - 0)
    rw [if_neg (by omega), if_neg (by omega), if_pos (by omega)] at h0
    rw [List.getD_eq_getElem?_getD, h0]
    rfl
  · intro k hk1 hkn
    show (s.roll n).2.buf.getD ((s.roll n).2.off - 1 - k) default = s.elemAt (k - 1)
    rw [hoff]
    have h0 := hget (s.off - 1 - k)
    rw [if_neg (by omega), if_pos (by omega)] at h0
    rw [List.getD_eq_getElem?_getD, h0, Stack.elemAt, List.getD_eq_getElem?_getD]
    have hidx : s.off - 1 - k + 1 = s.off - 1 - (k - 1) := by omega
    rw [hidx]
  · intro k hkn hks
    show (s.roll n).2.buf.getD ((s.roll n).2.off - 1 - k) default = s.elemAt k
    rw [hoff]
    have h0 := hget (s.off - 1 - k)
    rw [if_pos (by omega)] at h0
    rw [List.getD_eq_getElem?_getD, h0, Stack.elemAt, List.getD_eq_getElem?_getD]

/-! ### Claim theorems -/

/-- C1 (amended): for a stack of size `s` and depth `n`, `roll(n)` fails with
UnderflowError iff `s <= n`; when `s > n` but the stack is full
(`s == capacity`) it fails with OverflowError, because its temporary `pick`
needs one slot of headroom; when `s > n` and `s < capacity` it succeeds:
the old depth-`n` element becomes the top, every element at depths
`1..n-1` and the old top move one position closer to the bottom (the new
depth `k` holds the old depth `k-1` for `1 <= k <= n`), all elements below
depth `n` are unchanged, and the size is unchanged. -/
theorem C1_roll_spec {T : Type} [Inhabited T] (s : Stack T) (n : Nat) :
    ((s.roll n).1 = Except.error StackError.underflow ↔ s.size ≤ n) ∧
    ((s.roll n).1 = Except.error StackError.overflow ↔ (n < s.size ∧ s.capacity ≤ s.size)) ∧
    (n < s.size → s.size < s.capacity →
      (s.roll n).1 = Except.ok () ∧
      (s.roll n).2.size = s.size ∧
      (s.roll n).2.elemAt 0 = s.elemAt n ∧
      (∀ k, 1 ≤ k → k ≤ n → (s.roll n).2.elemAt k = s.elemAt (k - 1)) ∧
      (∀ k, n < k → k < s.size → (s.roll n).2.elemAt k = s.elemAt k)) := by
  refine ⟨Stack.roll_underflow_iff s n, Stack.roll_overflow_iff s n, fun hn hc => ?_⟩
  obtain ⟨a, b, _, c, d, e⟩ := Stack.roll_elemAt_spec s n hn hc
  exact ⟨a, b, c, d, e⟩

/-- C1 witness: on the stack 1,2,3,4 (capacity 6), `roll(2)` succeeds and
brings the depth-2 element 2 to the top. -/
theorem C1_roll_spec_witness :
    2 < exS3.size ∧ exS3.size < exS3.capacity ∧
    (exS3.roll 2).1 = Except.ok () ∧ (exS3.roll 2).2.size = exS3.size ∧
    (exS3.roll 2).2.elemAt 0 = exS3.elemAt 2 := by
  have h := (C1_roll_spec exS3 2).2.2 (by decide) (by decide)
  exact ⟨by decide, by decide, h.1, h.2.1, h.2.2.1⟩

/-- C1 counterexample: on a full stack of size 2 (capacity 2) and depth
`n = 1 < 2 = s`, `roll(1)` does not bring the depth-1 element to the top
as the claim requires for `s > n`; it fails with OverflowError and leaves
the stack unchanged. -/
theorem C1_roll_full_counterexample :
    1 < exFull2.size ∧
    (exFull2.roll 1).1 = Except.error StackError.overflow ∧
    (exFull2.roll 1).1 ≠ Except.ok () ∧
    (exFull2.roll 1).2 = exFull2 := by
  refine ⟨by decide, rfl, ?_, rfl⟩
  intro h
  rw [show (exFull2.roll 1).1 = Except.error StackError.overflow from rfl] at h
  exact Except.noConfusion h

/-- C2 (amended): `pick(n)` fails with UnderflowError iff `size <= n`; when
`size > n` but the stack is full it fails with OverflowError instead of
pushing; when `size > n` and `size < capacity` it pushes a copy of the
element at depth `n`, increasing the size by exactly 1 and leaving every
existing element unchanged (the old depth `k` becomes depth `k+1`). -/
theorem C2_pick_spec {T : Type} [Inhabited T] (s : Stack T) (n : Nat) :
    ((s.pick n).1 = Except.error StackError.underflow ↔ s.size ≤ n) ∧
    ((s.pick n).1 = Except.error StackError.overflow ↔ (n < s.size ∧ s.capacity ≤ s.size)) ∧
    (n < s.size → s.size < s.capacity →
      (s.pick n).1 = Except.ok () ∧
      (s.pick n).2.size = s.size + 1 ∧
      (s.pick n).2.elemAt 0 = s.elemAt n ∧
      (∀ k, k < s.size → (s.pick n).2.elemAt (k + 1) = s.elemAt k)) := by
  refine ⟨Stack.pick_underflow_iff s n, Stack.pick_overflow_iff s n, fun hn hc => ?_⟩
  obtain ⟨a, b, _, c, d⟩ := Stack.pick_elemAt_spec s n hn hc
  exact ⟨a, b, c, d⟩

/-- C2 witness: on the stack 1,2,3,4 (capacity 6), `pick(0)` succeeds,
duplicating the top element 4 and growing the size to 5. -/
theorem C2_pick_spec_witness :
    0 < exS3.size ∧ exS3.size < exS3.capacity ∧
    (exS3.pick 0).1 = Except.ok () ∧ (exS3.pick 0).2.size = exS3.size + 1 ∧
    (exS3.pick 0).2.elemAt 0 = exS3.elemAt 0 := by
  have h := (C2_pick_spec exS3 0).2.2 (by decide) (by decide)
  exact ⟨by decide, by decide, h.1, h.2.1, h.2.2.1⟩

/-- C2 counterexample: on a full stack of size 1 and capacity 1, `pick(0)`
has `s = 1 > 0 = n`, so the claim says it pushes a copy and the size grows
to 2; the code instead fails with OverflowError (the temporary push has no
headroom) and the size stays 1. -/
theorem C2_pick_full_counterexample :
    exFull1.size = 1 ∧ exFull1.capacity = 1 ∧
    (exFull1.pick 0).1 = Except.error StackError.overflow ∧
    (exFull1.pick 0).1 ≠ Except.ok () ∧
    (exFull1.pick 0).2.size = 1 := by
  refine ⟨rfl, rfl, rfl, ?_, rfl⟩
  intro h
  rw [show (exFull1.pick 0).1 = Except.error StackError.overflow from rfl] at h
  exact Except.noConfusion h

/-- C7: the RPN law table, on an initially empty stack of capacity 8 with
the listed values pushed left to right (top rightmost). -/
theorem C7_rpn_table :
    ((rpn [1, 2]).dup).1 = Except.ok () ∧ ((rpn [1, 2]).dup).2.contents = [1, 2, 2] ∧
    ((rpn [1, 2, 3]).swap).1 = Except.ok () ∧ ((rpn [1, 2, 3]).swap).2.contents = [1, 3, 2] ∧
    ((rpn [1, 2]).over).1 = Except.ok () ∧ ((rpn [1, 2]).over).2.contents = [1, 2, 1] ∧
    ((rpn [1, 2, 3]).rot).1 = Except.ok () ∧ ((rpn [1, 2, 3]).rot).2.contents = [2, 3, 1] ∧
    ((rpn [1, 2, 3]).nip).1 = Except.ok () ∧ ((rpn [1, 2, 3]).nip).2.contents = [1, 3] ∧
    ((rpn [1, 2]).tuck).1 = Except.ok () ∧ ((rpn [1, 2]).tuck).2.contents = [2, 1, 2] := by
  exact ⟨rfl, rfl, rfl, rfl, rfl, rfl, rfl, rfl, rfl, rfl, rfl, rfl⟩

/-- C8: on a non-empty stack (with the size/capacity invariant), `peek()`
returns the top element and leaves the stack state exactly unchanged, even
though it is implemented as a pop followed by a push; hence any number of
`peek()` calls leaves the stack unchanged and returns the same top value. -/
theorem C8_peek_idempotent {T : Type} [Inhabited T] (s : Stack T)
    (h : 0 < s.size) (hc : s.size ≤ s.capacity) :
    s.peek = (Except.ok (s.elemAt 0), s) :=
  Stack.peek_ok s h hc

/-- C8 witness: peeking the stack 1,2,3,4 returns 4 and changes nothing. -/
theorem C8_peek_idempotent_witness :
    0 < exS3.size ∧ exS3.size ≤ exS3.capacity ∧ exS3.peek = (Except.ok 4, exS3) := by
  refine ⟨by decide, by decide, ?_⟩
  rw [C8_peek_idempotent exS3 (by decide) (by decide)]
  rfl

/-- C10: on a stack with at least two elements and one free slot of
headroom, `swap()` twice succeeds and restores the stack: same size and
the same element at every depth. -/
theorem C10_swap_involution {T : Type} [Inhabited T] (s : Stack T)
    (h2 : 2 ≤ s.size) (hc : s.size < s.capacity) :
    (s.swap).1 = Except.ok () ∧
    ((s.swap).2.swap).1 = Except.ok () ∧
    ((s.swap).2.swap).2.size = s.size ∧
    (∀ k, k < s.size → ((s.swap).2.swap).2.elemAt k = s.elemAt k) := by
  have h2o : 2 ≤ s.off := h2
  have hco : s.off < s.buf.length := hc
  obtain ⟨a1, o1, l1, t1, m1, u1⟩ := Stack.roll_elemAt_spec s 1 (by omega) hco
  have hro2 : 1 < (s.roll 1).2.off := by rw [o1]; omega
  have hrc2 : (s.roll 1).2.off < (s.roll 1).2.buf.length := by rw [o1, l1]; omega
  obtain ⟨a2, o2, l2, t2, m2, u2⟩ := Stack.roll_elemAt_spec (s.roll 1).2 1 hro2 hrc2
  refine ⟨a1, a2, ?_, ?_⟩
  · show ((s.roll 1).2.roll 1).2.off = s.off
    rw [o2, o1]
  · intro k hk
    have hk' : k < s.off := hk
    show ((s.roll 1).2.roll 1).2.elemAt k = s.elemAt k
    rcases k with _ | _ | k
    · rw [t2, m1 1 (by omega) (by omega)]
    · rw [m2 1 (by omega) (by omega)]
      exact t1
    · rw [u2 (k + 2) (by omega) (by rw [o1]; exact hk')]
      exact u1 (k + 2) (by omega) hk'

/-- C10 witness: double swap on the stack 1,2,3,4 (capacity 6) succeeds
and restores the size. -/
theorem C10_swap_involution_witness :
    2 ≤ exS3.size ∧ exS3.size < exS3.capacity ∧
    ((exS3.swap).2.swap).1 = Except.ok () ∧ ((exS3.swap).2.swap).2.size = exS3.size := by
  have h := C10_swap_involution exS3 (by decide) (by decide)
  exact ⟨by decide, by decide, h.2.1, h.2.2.1⟩

/-! ### Invariant preservation helpers -/

theorem Stack.allocate_capacity (s : Stack T) (newCap : Nat) :
    (s.allocate newCap).buf.length = newCap := by
  show (s.buf.take (min s.buf.length newCap) ++
      List.replicate (newCap - min s.buf.length newCap) default).length = newCap
  rw [List.length_append, List.length_take, List.length_replicate]
  omega

omit [Inhabited T] in
theorem Stack.push_wf (s : Stack T) (x : T) (h : s.off ≤ s.buf.length) :
    (s.push x).2.off ≤ (s.push x).2.buf.length := by
  by_cases hc : s.buf.length ≤ s.off
  · rw [Stack.push_err s x hc]; exact h
  · rw [Stack.push_ok s x (by omega)]
    show s.off + 1 ≤ (s.buf.set s.off x).length
    rw [List.length_set]; omega

theorem Stack.pop_wf (s : Stack T) (h : s.off ≤ s.buf.length) :
    (s.pop).2.off ≤ (s.pop).2.buf.length := by
  by_cases h0 : s.off = 0
  · rw [Stack.pop_err s h0]; exact h
  · rw [Stack.pop_ok s (by omega)]
    show s.off - 1 ≤ s.buf.length
    omega

theorem Stack.peek_wf (s : Stack T) (h : s.off ≤ s.buf.length) :
    (s.peek).2.off ≤ (s.peek).2.buf.length := by
  by_cases h0 : s.off = 0
  · rw [Stack.peek_err_under s h0]; exact h
  · rw [Stack.peek_ok s (by omega) h]; exact h

theorem Stack.pick_wf (s : Stack T) (n : Nat) (h : s.off ≤ s.buf.length) :
    (s.pick n).2.off ≤ (s.pick n).2.buf.length := by
  by_cases h1 : s.off ≤ n
  · rw [Stack.pick_err_under s n h1]; exact h
  · by_cases h2 : s.off < s.buf.length
    · rw [Stack.pick_ok s n (by omega) h2]
      show s.off + 1 ≤ (s.buf.set s.off _).length
      rw [List.length_set]; omega
    · rw [Stack.pick_err_over s n (by omega) (by omega)]; exact h

theorem Stack.roll_wf (s : Stack T) (n : Nat) (h : s.off ≤ s.buf.length) :
    (s.roll n).2.off ≤ (s.roll n).2.buf.length := by
  by_cases h1 : s.off ≤ n
  · rw [Stack.roll_err_under s n h1]; exact h
  · by_cases h2 : s.off < s.buf.length
    · rw [Stack.roll_ok s n (by omega) h2]
      show s.off ≤ (rollShift (s.buf.set s.off _) _ _).length
      rw [rollShift_length, List.length_set]; omega
    · rw [Stack.roll_err_over s n (by omega) (by omega)]; exact h

theorem Stack.drop_wf (s : Stack T) (h : s.off ≤ s.buf.length) :
    (s.drop).2.off ≤ (s.drop).2.buf.length := by
  by_cases h0 : s.off = 0
  · simp only [Stack.drop, Stack.pop_err s h0]; exact h
  · simp only [Stack.drop, Stack.pop_ok s (by omega)]
    show s.off - 1 ≤ s.buf.length
    omega

theorem Stack.nip_wf (s : Stack T) (h : s.off ≤ s.buf.length) :
    (s.nip).2.off ≤ (s.nip).2.buf.length := by
  by_cases h1 : s.off ≤ 1
  · rw [Stack.nip_err_under s h1]; exact h
  · by_cases h2 : s.off < s.buf.length
    · rw [Stack.nip_ok s (by omega) h2]
      show s.off - 1 ≤ (s.roll 1).2.buf.length
      have := Stack.roll_wf s 1 h
      have hof : (s.roll 1).2.off = s.off := by
        rw [Stack.roll_ok s 1 (by omega) h2]
      omega
    · rw [Stack.nip_err_over s (by omega) (by omega)]; exact h

theorem Stack.tuck_wf (s : Stack T) (h : s.off ≤ s.buf.length) :
    (s.tuck).2.off ≤ (s.tuck).2.buf.length := by
  by_cases h1 : s.off ≤ 1
  · rw [Stack.tuck_err_under s h1]; exact h
  · by_cases h2 : s.off < s.buf.length
    · have hr := Stack.roll_ok s 1 (by omega) h2
      have hwf : (s.roll 1).2.off ≤ (s.roll 1).2.buf.length := Stack.roll_wf s 1 h
      simp only [Stack.tuck, Stack.swap, hr, Stack.over]
      rw [hr] at hwf
      exact Stack.pick_wf _ 1 hwf
    · rw [Stack.tuck_err_over s (by omega) (by omega)]; exact h

/-- C3: error raising is exhaustive and atomic.  `push` raises
OverflowError exactly when `size >= capacity` and succeeds exactly when
`size < capacity`, growing the size by one; `pop` and `peek` raise
UnderflowError iff `size == 0`; `pick(n)`, `roll(n)` and every derived
primitive raise UnderflowError iff their depth requirement is unmet
(`size <= n`; `n = 0` for dup/drop, `1` for swap/over/nip/tuck, `2` for
rot); and whenever an operation raises any error the stack state is
returned unchanged — no partial mutation — with `peek`'s case stated
under the stack's size/capacity invariant. -/
theorem C3_errors_exhaustive_atomic {T : Type} [Inhabited T] :
    (∀ s : Stack T, ∀ x : T,
      ((s.push x).1 = Except.error StackError.overflow ↔ s.capacity ≤ s.size) ∧
      ((s.push x).1 = Except.ok () ↔ s.size < s.capacity) ∧
      (s.size < s.capacity → (s.push x).2.size = s.size + 1) ∧
      (∀ e, (s.push x).1 = Except.error e → (s.push x).2 = s)) ∧
    (∀ s : Stack T,
      ((s.pop).1 = Except.error StackError.underflow ↔ s.size = 0) ∧
      (0 < s.size → (s.pop).2.size = s.size - 1) ∧
      (∀ e, (s.pop).1 = Except.error e → (s.pop).2 = s)) ∧
    (∀ s : Stack T,
      ((s.peek).1 = Except.error StackError.underflow ↔ s.size = 0) ∧
      (s.size ≤ s.capacity → ∀ e, (s.peek).1 = Except.error e → (s.peek).2 = s)) ∧
    (∀ s : Stack T, ∀ n : Nat,
      ((s.pick n).1 = Except.error StackError.underflow ↔ s.size ≤ n) ∧
      (∀ e, (s.pick n).1 = Except.error e → (s.pick n).2 = s)) ∧
    (∀ s : Stack T, ∀ n : Nat,
      ((s.roll n).1 = Except.error StackError.underflow ↔ s.size ≤ n) ∧
      (∀ e, (s.roll n).1 = Except.error e → (s.roll n).2 = s)) ∧
    (∀ s : Stack T,
      ((s.dup).1 = Except.error StackError.underflow ↔ s.size = 0) ∧
      ((s.drop).1 = Except.error StackError.underflow ↔ s.size = 0) ∧
      ((s.swap).1 = Except.error StackError.underflow ↔ s.size ≤ 1) ∧
      ((s.over).1 = Except.error StackError.underflow ↔ s.size ≤ 1) ∧
      ((s.rot).1 = Except.error StackError.underflow ↔ s.size ≤ 2) ∧
      ((s.nip).1 = Except.error StackError.underflow ↔ s.size ≤ 1) ∧
      ((s.tuck).1 = Except.error StackError.underflow ↔ s.size ≤ 1)) ∧
    (∀ s : Stack T,
      (∀ e, (s.dup).1 = Except.error e → (s.dup).2 = s) ∧
      (∀ e, (s.drop).1 = Except.error e → (s.drop).2 = s) ∧
      (∀ e, (s.swap).1 = Except.error e → (s.swap).2 = s) ∧
      (∀ e, (s.over).1 = Except.error e → (s.over).2 = s) ∧
      (∀ e, (s.rot).1 = Except.error e → (s.rot).2 = s) ∧
      (∀ e, (s.nip).1 = Except.error e → (s.nip).2 = s) ∧
      (∀ e, (s.tuck).1 = Except.error e → (s.tuck).2 = s)) := by
  refine ⟨fun s x => ⟨Stack.push_overflow_iff s x, Stack.push_ok_iff s x, fun h => ?_,
      Stack.push_err_state s x⟩,
    fun s => ⟨Stack.pop_underflow_iff s, fun h => ?_, Stack.pop_err_state s⟩,
    fun s => ⟨Stack.peek_underflow_iff s, fun hw => Stack.peek_err_state s hw⟩,
    fun s n => ⟨Stack.pick_underflow_iff s n, Stack.pick_err_state s n⟩,
    fun s n => ⟨Stack.roll_underflow_iff s n, Stack.roll_err_state s n⟩,
    fun s => ⟨(Stack.pick_underflow_iff s 0).trans Nat.le_zero,
      Stack.drop_underflow_iff s, Stack.roll_underflow_iff s 1, Stack.pick_underflow_iff s 1,
      Stack.roll_underflow_iff s 2, Stack.nip_underflow_iff s, Stack.tuck_underflow_iff s⟩,
    fun s => ⟨Stack.pick_err_state s 0, Stack.drop_err_state s, Stack.roll_err_state s 1,
      Stack.pick_err_state s 1, Stack.roll_err_state s 2, Stack.nip_err_state s,
      Stack.tuck_err_state s⟩⟩
  · rw [Stack.push_ok s x h]
    rfl
  · rw [Stack.pop_ok s h]
    rfl

/-- C3 witness: concrete applications of the atomicity and effect parts:
pushing onto a full stack and rolling an empty stack leave the stacks
unchanged, and a successful push grows the size by one. -/
theorem C3_errors_exhaustive_atomic_witness :
    (exFull2.push 9).2 = exFull2 ∧
    ((Stack.new Nat 3).roll 1).2 = Stack.new Nat 3 ∧
    (exS3.push 9).2.size = exS3.size + 1 := by
  obtain ⟨hpush, _hpop, _hpeek, _hpick, hroll, _hiffs, _hatomic⟩ :=
    C3_errors_exhaustive_atomic (T := Nat)
  exact ⟨(hpush exFull2 9).2.2.2 StackError.overflow (by rfl),
    (hroll (Stack.new Nat 3) 1).2 StackError.underflow (by rfl),
    (hpush exS3 9).2.2.1 (by decide)⟩

/-- C4 (amended): every public operation except a shrinking `allocate`
preserves `0 <= size <= capacity`: construction, copy, copy-assignment
(whenever it yields a defined result: the result is a copy of the source,
so it satisfies the invariant if the source does; the aliased
self-assignment call has no defined result at all, see C9), clear, push,
pop, peek, pick, roll and every derived primitive preserve the invariant
(also across failed calls), while `allocate(newCapacity)` leaves the
invariant holding iff `newCapacity >= size` — shrinking below the current
size leaves `size > capacity`, as the spec's open question notes. -/
theorem C4_invariant_preservation {T : Type} [Inhabited T] :
    (∀ n : Nat, (Stack.new T n).size ≤ (Stack.new T n).capacity) ∧
    (∀ s : Stack T, s.size ≤ s.capacity → s.copy.size ≤ s.copy.capacity) ∧
    (∀ dst src : Stack T, ∀ b : Bool, ∀ r : Stack T, opAssign dst src b = some r →
      src.size ≤ src.capacity → r.size ≤ r.capacity) ∧
    (∀ s : Stack T, s.clear.size ≤ s.clear.capacity) ∧
    (∀ s : Stack T, ∀ newCap : Nat,
      ((s.allocate newCap).size ≤ (s.allocate newCap).capacity ↔ s.size ≤ newCap)) ∧
    (∀ s : Stack T, ∀ x : T, s.size ≤ s.capacity → (s.push x).2.size ≤ (s.push x).2.capacity) ∧
    (∀ s : Stack T, s.size ≤ s.capacity → (s.pop).2.size ≤ (s.pop).2.capacity) ∧
    (∀ s : Stack T, s.size ≤ s.capacity → (s.peek).2.size ≤ (s.peek).2.capacity) ∧
    (∀ s : Stack T, ∀ n : Nat,
      s.size ≤ s.capacity → (s.pick n).2.size ≤ (s.pick n).2.capacity) ∧
    (∀ s : Stack T, ∀ n : Nat,
      s.size ≤ s.capacity → (s.roll n).2.size ≤ (s.roll n).2.capacity) ∧
    (∀ s : Stack T, s.size ≤ s.capacity → (s.dup).2.size ≤ (s.dup).2.capacity) ∧
    (∀ s : Stack T, s.size ≤ s.capacity → (s.drop).2.size ≤ (s.drop).2.capacity) ∧
    (∀ s : Stack T, s.size ≤ s.capacity → (s.swap).2.size ≤ (s.swap).2.capacity) ∧
    (∀ s : Stack T, s.size ≤ s.capacity → (s.over).2.size ≤ (s.over).2.capacity) ∧
    (∀ s : Stack T, s.size ≤ s.capacity → (s.rot).2.size ≤ (s.rot).2.capacity) ∧
    (∀ s : Stack T, s.size ≤ s.capacity → (s.nip).2.size ≤ (s.nip).2.capacity) ∧
    (∀ s : Stack T, s.size ≤ s.capacity → (s.tuck).2.size ≤ (s.tuck).2.capacity) := by
  refine ⟨fun n => ?_, fun s h => h, fun dst src b r hr h => ?_,
    fun s => Nat.zero_le _, fun s newCap => ?_,
    fun s x h => Stack.push_wf s x h, fun s h => Stack.pop_wf s h,
    fun s h => Stack.peek_wf s h, fun s n h => Stack.pick_wf s n h,
    fun s n h => Stack.roll_wf s n h, fun s h => Stack.pick_wf s 0 h,
    fun s h => Stack.drop_wf s h, fun s h => Stack.roll_wf s 1 h,
    fun s h => Stack.pick_wf s 1 h, fun s h => Stack.roll_wf s 2 h,
    fun s h => Stack.nip_wf s h, fun s h => Stack.tuck_wf s h⟩
  · show (0 : Nat) ≤ (List.replicate n (default : T)).length
    exact Nat.zero_le _
  · cases b with
    | true =>
        rw [show opAssign dst src true = none from rfl] at hr
        exact Option.noConfusion hr
    | false =>
        rw [show opAssign dst src false = some { buf := src.buf, off := src.off } from rfl] at hr
        injection hr with hr
        rw [← hr]
        exact h
  · have hcap := Stack.allocate_capacity s newCap
    show (s.allocate newCap).off ≤ (s.allocate newCap).buf.length ↔ s.off ≤ newCap
    rw [hcap]
    exact Iff.rfl

/-- C4 witness: the preserved cases apply concretely — push on the
1,2,3,4 stack, a non-aliased copy-assignment of that stack, and
`allocate`'s iff on the shrinking example. -/
theorem C4_invariant_preservation_witness :
    exS3.size ≤ exS3.capacity ∧
    (exS3.push 9).2.size ≤ (exS3.push 9).2.capacity ∧
    (opAssign exFull2 exS3 false = some { buf := exS3.buf, off := exS3.off } ∧
      ({ buf := exS3.buf, off := exS3.off } : Stack Nat).size ≤
        ({ buf := exS3.buf, off := exS3.off } : Stack Nat).capacity) ∧
    ((exShrink.allocate 1).size ≤ (exShrink.allocate 1).capacity ↔ exShrink.size ≤ 1) := by
  obtain ⟨_, _, hassign, _, halloc, hpush, _⟩ := C4_invariant_preservation (T := Nat)
  exact ⟨by decide, hpush exS3 9 (by decide),
    ⟨rfl, hassign exFull2 exS3 false { buf := exS3.buf, off := exS3.off } rfl (by decide)⟩,
    halloc exShrink 1⟩

/-- C4 counterexample: the claim as stated is false for `allocate`: the
stack 5,6 (size 2 = capacity 2) satisfies the invariant, yet after
`allocate(1)` the size is still 2 while the capacity is 1. -/
theorem C4_allocate_shrink_counterexample :
    exShrink.size ≤ exShrink.capacity ∧
    (exShrink.allocate 1).size = 2 ∧ (exShrink.allocate 1).capacity = 1 ∧
    ¬ (exShrink.allocate 1).size ≤ (exShrink.allocate 1).capacity := by
  exact ⟨by decide, rfl, rfl, by decide⟩

/-- C5: the `memcpy` in `src/C++/stack.hh`'s `allocate` does not preserve
the first `min(oldCapacity, newCapacity)` buffer slots when it shrinks and
`sizeof(T) > 1`: with `oldCapacity = 4`, `newCapacity = 2` and a 4-byte
element, the unparenthesized ternary passes only 2 bytes to `memcpy`, so 0
whole elements are preserved where the claim requires `min(4, 2) = 2`.
The sibling copy `src/unnamed/part_002` (parenthesized ternary, modelled
by `Stack.allocate`) does satisfy the claim, shown here on the concrete
shrinking example: capacity becomes exactly the new capacity, the
top-of-stack offset is kept, and the first `min(2, 1) = 1` slot is
preserved. -/
theorem C5_allocate_copy_bug :
    allocCopiedElems 4 2 4 = 0 ∧ min 4 2 = 2 ∧ allocCopiedElems 4 2 4 ≠ min 4 2 ∧
    (exShrink.allocate 1).capacity = 1 ∧ (exShrink.allocate 1).size = exShrink.size ∧
    (exShrink.allocate 1).buf.take 1 = exShrink.buf.take 1 := by
  exact ⟨rfl, rfl, by decide, rfl, rfl, rfl⟩

/-- C6: the LIFO law: pushing any sequence of values that fits in the
remaining capacity succeeds, popping the same number of values returns
them in exactly reversed order, and the stack then holds exactly the
elements it held before the pushes. -/
theorem C6_lifo {T : Type} [Inhabited T] (s : Stack T) (xs : List T)
    (h : s.size + xs.length ≤ s.capacity) :
    (s.pushAll xs).1 = Except.ok () ∧
    ((s.pushAll xs).2.popN xs.length).1 = Except.ok xs.reverse ∧
    ((s.pushAll xs).2.popN xs.length).2.size = s.size ∧
    ((s.pushAll xs).2.popN xs.length).2.contents = s.contents := by
  have h' : s.off + xs.length ≤ s.buf.length := h
  obtain ⟨a, b, c, d⟩ := Stack.pushAll_ok xs s h'
  have hpop := Stack.popN_ok xs.length (s.pushAll xs).2 (by rw [b]; omega) (by rw [b, c]; omega)
  have hc' : (s.pushAll xs).2.buf.take (s.off + xs.length) = s.contents ++ xs := by
    rw [← b]; exact d
  have hlen : s.contents.length = s.off := by
    show (s.buf.take s.off).length = s.off
    rw [List.length_take]; omega
  have hvals : ((s.pushAll xs).2.buf.drop ((s.pushAll xs).2.off - xs.length)).take xs.length
      = xs := by
    have hoff : (s.pushAll xs).2.off - xs.length = s.off := by rw [b]; omega
    rw [hoff]
    have hdt : ((s.pushAll xs).2.buf.take (s.off + xs.length)).drop s.off
        = ((s.pushAll xs).2.buf.drop s.off).take xs.length := by
      rw [List.drop_take]
      congr 1
      omega
    rw [← hdt, hc', List.drop_left' hlen]
  have hcont : (s.pushAll xs).2.buf.take (s.off) = s.contents := by
    have h1 : (s.pushAll xs).2.buf.take s.off
        = ((s.pushAll xs).2.buf.take (s.off + xs.length)).take s.off := by
      rw [List.take_take]
      congr 1
      omega
    rw [h1, hc', List.take_left' hlen]
  refine ⟨a, ?_, ?_, ?_⟩
  · rw [hpop, hvals]
  · rw [hpop]
    show (s.pushAll xs).2.off - xs.length = s.off
    rw [b]; omega
  · rw [hpop]
    show (s.pushAll xs).2.buf.take ((s.pushAll xs).2.off - xs.length) = s.contents
    have hoff : (s.pushAll xs).2.off - xs.length = s.off := by rw [b]; omega
    rw [hoff, hcont]

/-- C6 witness: pushing 1, 2, 3 onto an empty capacity-5 stack and popping
three times yields 3, 2, 1. -/
theorem C6_lifo_witness :
    (Stack.new Nat 5).size + ([1, 2, 3] : List Nat).length ≤ (Stack.new Nat 5).capacity ∧
    (((Stack.new Nat 5).pushAll [1, 2, 3]).2.popN 3).1 = Except.ok [3, 2, 1] := by
  have h := C6_lifo (Stack.new Nat 5) [1, 2, 3] (by decide)
  exact ⟨by decide, h.2.1⟩

/-- C9: self-assignment is NOT safe in the source: `operator=` runs
`delete[] this->_base` before it calls `stack.copy()`, so when the
argument aliases the destination (`s = s`) the copy reads memory that has
just been freed and no defined result exists (`none` in the model); the
very same code applied to a non-aliased argument produces a faithful
copy.  The ordering the claim describes (copy fully constructed before
the old buffer is released) is exactly what the code does not do. -/
theorem C9_self_assignment_unsafe :
    opAssign exFull1 exFull1 true = none ∧
    opAssign exFull1 exFull1 false = some exFull1 := ⟨rfl, rfl⟩

end DS
